import Mathlib

/-!
Shallow embedding of the Sentinel-2 vegetation-health pipeline (`src/main.py`).

The script composes Google Earth Engine raster operations:
masking (`mask_s2_clouds` with its two strategies `mask_with_qa` /
`mask_with_scl`), NDVI computation (`add_ndvi`), date filtering
(`get_sentinel2_collection`), monthly maximum-value compositing
(`create_monthly_mvc` via `qualityMosaic`), the annual mean (`mean_ndvi`)
and a final reprojection.

A raster band is modelled as a function from pixel index to `Option ℚ`:
`none` is nodata (a masked sample), `some v` a valid sample with exact
rational value `v` (the embedding is exact arithmetic, so "never NaN or
infinity" is by construction: the only non-value is `none`).  An image is
a finite ordered family of named bands plus a timestamp (in days, allowing
fractional times within a day) and an AOI flag used by `filterBounds`.
Earth Engine primitives used by the script (`updateMask`, `eq`, `And`,
`Or`, `bitwiseAnd`, `normalizedDifference`, `filterDate`, `qualityMosaic`,
`mean`, `reproject`) are embedded with their documented per-pixel
semantics: masked inputs propagate to masked outputs, masked samples are
excluded from reductions, selecting an absent band is an error, and a
computation mapped over a collection fails as a whole if it fails on any
image of the collection.
-/

namespace VegHealth

/-- A raster band: pixel index to sample; `none` is nodata. -/
abbrev Band := Nat → Option ℚ

/-- Errors surfaced by the embedded Earth Engine operations. -/
inductive EEError where
  /-- An operation asked for a band the image does not carry. -/
  | missingBand : String → EEError
deriving DecidableEq

/-- A raster image: ordered named bands, a timestamp (days since a fixed
epoch, fractional times allowed), and whether the footprint meets the AOI
(consumed by `filterBounds`). All bands share one pixel grid. -/
structure Image where
  bands : List (String × Band)
  time : ℚ
  inAoi : Bool

/-- First band of the given name in an ordered band list. -/
def lookupBand : List (String × Band) → String → Option Band
  | [], _ => none
  | (n, f) :: rest, b => if n == b then some f else lookupBand rest b

/-- The band of the given name, if present. -/
def Image.getBand (img : Image) (b : String) : Option Band :=
  lookupBand img.bands b

/-- `image.bandNames()`. -/
def Image.bandNames (img : Image) : List String :=
  img.bands.map Prod.fst

/-- `image.select(b)` for a plain band name: the band, or an error when it
is absent. -/
def Image.selectBand (img : Image) (b : String) : Except EEError Band :=
  match img.getBand b with
  | some f => .ok f
  | none => .error (.missingBand b)

/-- The sample of band `b` at pixel `p` (`none` when the band is absent or
the pixel is nodata). -/
def Image.valueAt (img : Image) (b : String) (p : Nat) : Option ℚ :=
  (img.getBand b).bind fun f => f p

/-- Apply a per-band transformation to every band (name-preserving). -/
def Image.mapBands (img : Image) (g : Band → Band) : Image :=
  { img with bands := img.bands.map fun nf => (nf.1, g nf.2) }

/-- Replace the timestamp (`copyProperties` of `system:time_start`, and
`set('system:time_start', …)`). -/
def Image.withTime (img : Image) (t : ℚ) : Image :=
  { img with time := t }

/-! ### Per-pixel band arithmetic (Earth Engine semantics) -/

/-- `band.bitwiseAnd(n)`: per pixel, the bitwise AND of the sample
(interpreted as its integer digital number, as Earth Engine casts operands
of bitwise operators to integers) with `n`; nodata propagates. -/
def bandAndNat (f : Band) (n : Nat) : Band :=
  fun p => (f p).map fun q => ((Nat.land q.num.toNat n : Nat) : ℚ)

/-- `band.eq(c)`: per pixel `1` when equal, `0` otherwise; nodata
propagates. -/
def bandEq (f : Band) (c : ℚ) : Band :=
  fun p => (f p).map fun q => if q = c then (1 : ℚ) else 0

/-- `a.And(b)`: logical conjunction, nonzero meaning true; nodata in
either operand propagates. -/
def bandAnd (f g : Band) : Band :=
  fun p => do
    let a ← f p
    let b ← g p
    pure (if a ≠ 0 ∧ b ≠ 0 then (1 : ℚ) else 0)

/-- `a.Or(b)`: logical disjunction, nonzero meaning true; nodata in either
operand propagates. -/
def bandOr (f g : Band) : Band :=
  fun p => do
    let a ← f p
    let b ← g p
    pure (if a ≠ 0 ∨ b ≠ 0 then (1 : ℚ) else 0)

/-- `image.updateMask(m)`: a pixel stays valid only where the mask holds a
valid nonzero sample; applied uniformly to every band. -/
def Image.updateMask (img : Image) (m : Band) : Image :=
  img.mapBands fun f p =>
    match m p with
    | some v => if v ≠ 0 then f p else none
    | none => none

/-- `image.divide(d)`: every sample of every band divided by `d`; nodata
propagates. -/
def Image.divideAll (img : Image) (d : ℚ) : Image :=
  img.mapBands fun f p => (f p).map (· / d)

/-- Whether a band name matches the anchored regex `B.*` of the script's
`select("B.*")`: the name starts with the character `B`. -/
def matchesOptical (n : String) : Bool :=
  n.data.head? == some 'B'

/-- `image.select("B.*")`: keep exactly the bands whose name matches the
optical-band convention (name starting with `B`). -/
def Image.selectOptical (img : Image) : Image :=
  { img with bands := img.bands.filter fun nf => matchesOptical nf.1 }

/-- `image.addBands(f.rename(b))`: append one named derived band. -/
def Image.addBand (img : Image) (b : String) (f : Band) : Image :=
  { img with bands := img.bands ++ [(b, f)] }

/-- `collection.select(b)` applied to one image: keep only band `b`
(error when absent). -/
def Image.selectOnly (img : Image) (b : String) : Except EEError Image :=
  match img.getBand b with
  | some f => .ok { img with bands := [(b, f)] }
  | none => .error (.missingBand b)

/-! ### Calendar arithmetic

`ee.Date('YYYY-MM-01').advance(k, 'month')` advances by calendar months;
timestamps compare as linear instants.  `dateDays` is the standard civil
day-count (days since 0000-03-01, valid for the proleptic Gregorian
calendar and the years used here). -/

/-- Day number of a civil date (days since 0000-03-01). -/
def dateDays (y m d : Nat) : Nat :=
  let yy := if m ≤ 2 then y - 1 else y
  let era := yy / 400
  let yoe := yy % 400
  let mp := (m + 9) % 12
  let doy := (153 * mp + 2) / 5 + d - 1
  let doe := yoe * 365 + yoe / 4 - yoe / 100 + doy
  era * 146097 + doe

/-- `date.advance(k, 'month')` on a first-of-month date, as (year, month)
with month in 1..12. -/
def advanceMonths (ym : Nat × Nat) (k : Nat) : Nat × Nat :=
  let t := ym.1 * 12 + (ym.2 - 1) + k
  (t / 12, t % 12 + 1)

/-- `start_date = '2024-03-01'` as (year, month). -/
def startDateYM : Nat × Nat := (2024, 3)

/-- `start_date = '2024-03-01'` as a day number. -/
def start_date : Nat := dateDays 2024 3 1

/-- `end_date = '2024-10-31'` as a day number. -/
def end_date : Nat := dateDays 2024 10 31

/-! ### Collections and filtering -/

/-- `collection.filterDate(s, e)`: keep images whose timestamp lies in the
half-open interval `[s, e)`. -/
def filterDate (coll : List Image) (s e : ℚ) : List Image :=
  coll.filter fun img => decide (s ≤ img.time ∧ img.time < e)

/-- `collection.filterBounds(aoi)`: keep images meeting the AOI. -/
def filterBounds (coll : List Image) : List Image :=
  coll.filter fun img => img.inAoi

/-- `get_sentinel2_collection(aoi, start_date, end_date)`:
the archive filtered to the AOI and the configured date range. -/
def get_sentinel2_collection (archive : List Image) (s e : ℚ) : List Image :=
  filterDate (filterBounds archive) s e

/-- `collection.map(f)` for a fallible per-image computation: Earth Engine
evaluates the whole collection, so a failure on any image fails the
mapped collection as a whole. -/
def eeMap (f : Image → Except EEError Image) : List Image → Except EEError (List Image)
  | [] => .ok []
  | i :: is => do
    let j ← f i
    let js ← eeMap f is
    pure (j :: js)

/-! ### Cloud masking (`mask_s2_clouds`) -/

/-- `mask_with_qa`: mask from bits 10 (cloud) and 11 (cirrus) of the
`QA60` band, both required zero. -/
def mask_with_qa (img : Image) : Except EEError Image := do
  let qa ← img.selectBand "QA60"
  let cloudBitMask : Nat := 1 <<< 10
  let cirrusBitMask : Nat := 1 <<< 11
  let mask := bandAnd (bandEq (bandAndNat qa cloudBitMask) 0)
                      (bandEq (bandAndNat qa cirrusBitMask) 0)
  pure (img.updateMask mask)

/-- `mask_with_scl`: keep pixels whose `SCL` class is vegetation (4),
bare soil (5), water (6) or unclassified (7). -/
def mask_with_scl (img : Image) : Except EEError Image := do
  let scl ← img.selectBand "SCL"
  let mask := bandOr (bandOr (bandOr (bandEq scl 4) (bandEq scl 5)) (bandEq scl 6)) (bandEq scl 7)
  pure (img.updateMask mask)

/-- `mask_s2_clouds`: choose the strategy by presence of the `QA60` band,
apply it, scale by 10000, keep optical (`B.*`) bands, and keep the
original timestamp. -/
def mask_s2_clouds (image : Image) : Except EEError Image := do
  let has_qa60 := image.bandNames.contains "QA60"
  let masked_image ← if has_qa60 then mask_with_qa image else mask_with_scl image
  pure (((masked_image.divideAll 10000).selectOptical).withTime image.time)

/-! ### NDVI (`add_ndvi`) -/

/-- The guarded per-pixel normalized difference `(a − b) / (a + b)` of
two bands: nodata where either input is nodata or the denominator is
zero. -/
def ndBand (f1 f2 : Band) : Band := fun p => do
  let a ← f1 p
  let b ← f2 p
  if a + b = 0 then none else pure ((a - b) / (a + b))

/-- `image.normalizedDifference([b1, b2])`: per pixel `(a−b)/(a+b)`;
nodata where either input is nodata or the denominator is zero. -/
def normalizedDifference (img : Image) (b1 b2 : String) : Except EEError Band := do
  let f1 ← img.selectBand b1
  let f2 ← img.selectBand b2
  pure (ndBand f1 f2)

/-- `add_ndvi`: append the `NDVI` band computed from `B8` (NIR) and `B4`
(Red). -/
def add_ndvi (image : Image) : Except EEError Image := do
  let ndvi ← normalizedDifference image "B8" "B4"
  pure (image.addBand "NDVI" ndvi)

/-- `s2_collection.map(mask_s2_clouds).map(add_ndvi).select('NDVI')`
applied to an already AOI/date-filtered collection. -/
def s2_processed (coll : List Image) : Except EEError (List Image) := do
  let a ← eeMap mask_s2_clouds coll
  let b ← eeMap add_ndvi a
  eeMap (fun i => i.selectOnly "NDVI") b

/-! ### Monthly maximum-value composite -/

/-- The valid samples of band `b` at pixel `p` across a collection, in
collection order. -/
def validValuesAt (coll : List Image) (b : String) (p : Nat) : List ℚ :=
  coll.filterMap fun img => img.valueAt b p

/-- Maximum of a list of rationals (`none` for the empty list). -/
def listMax : List ℚ → Option ℚ
  | [] => none
  | x :: xs =>
    match listMax xs with
    | none => some x
    | some m => some (max x m)

/-- `collection.qualityMosaic(b)` restricted to the quality band itself:
per pixel, the sample of the image with the highest valid value of `b`
(so the value is the maximum of the valid samples); nodata where no image
has a valid sample, and all-nodata for an empty collection.  The pipeline
selects band `NDVI` before compositing, so the composite carries exactly
this one band. -/
def qualityMosaic (coll : List Image) (b : String) : Image :=
  { bands := [(b, fun p => listMax (validValuesAt coll b p))]
    time := 0
    inAoi := true }

/-- The window start of month index `m` (1-based):
`ee.Date(start_date).advance(m−1, 'month')`, as a day number. -/
def startOfMonthDays (m : Nat) : Nat :=
  let ym := advanceMonths startDateYM (m - 1)
  dateDays ym.1 ym.2 1

/-- `create_monthly_mvc(month)` on a processed collection: filter to the
month window and take the per-pixel maximum-NDVI composite, stamped with
the window start. -/
def create_monthly_mvc (coll : List Image) (month : Nat) : Image :=
  let s := advanceMonths startDateYM (month - 1)
  let e := advanceMonths s 1
  let sd : ℚ := (dateDays s.1 s.2 1 : Nat)
  let ed : ℚ := (dateDays e.1 e.2 1 : Nat)
  let monthly := filterDate coll sd ed
  (qualityMosaic monthly "NDVI").withTime sd

/-- `months.map(create_monthly_mvc)` for `months = ee.List.sequence(1, 12)`. -/
def monthly_mvc_collection (coll : List Image) : List Image :=
  (List.range 12).map fun i => create_monthly_mvc coll (i + 1)

/-! ### Annual mean and reprojection -/

/-- Arithmetic mean of a list of rationals (`none` for the empty list). -/
def listMean (l : List ℚ) : Option ℚ :=
  match l with
  | [] => none
  | _ => some (l.sum / l.length)

/-- `collection.mean()` on band `b`: per pixel, the arithmetic mean of the
valid samples (masked samples excluded); nodata where none is valid. -/
def collectionMean (coll : List Image) (b : String) : Band :=
  fun p => listMean (validValuesAt coll b p)

/-- The terminal raster: one band plus projection metadata set by
`reproject`. -/
structure ProjImage where
  band : Band
  crs : String
  scale : ℚ
deriving Inhabited

/-- `image.reproject(crs, None, scale)`: pixel values unchanged, target
grid metadata recorded. -/
def reproject (b : Band) (crs : String) (scale : ℚ) : ProjImage :=
  { band := b, crs := crs, scale := scale }

/-- `mean_ndvi = monthly_mvc_collection.select('NDVI').mean()` followed by
`reproject('EPSG:4326', None, 10)`, as a function of the processed
collection. -/
def mean_ndvi (coll : List Image) : ProjImage :=
  reproject (collectionMean (monthly_mvc_collection coll) "NDVI") "EPSG:4326" 10

/-- The whole pipeline from the raw archive to the exported raster. -/
def runPipeline (archive : List Image) : Except EEError ProjImage := do
  let coll := get_sentinel2_collection archive (start_date : Nat) (end_date : Nat)
  let procd ← s2_processed coll
  pure (mean_ndvi procd)

/-! ## Basic lemmas about band lookup -/

theorem lookupBand_map (g : Band → Band) (b : String) (l : List (String × Band)) :
    lookupBand (l.map fun nf => (nf.1, g nf.2)) b = (lookupBand l b).map g := by
  induction l with
  | nil => rfl
  | cons hd tl ih =>
    obtain ⟨n, f⟩ := hd
    cases h : n == b <;> simp [lookupBand, h, ih]

theorem lookupBand_filter (pred : String → Bool) (b : String) (hb : pred b = true)
    (l : List (String × Band)) :
    lookupBand (l.filter fun nf => pred nf.1) b = lookupBand l b := by
  induction l with
  | nil => rfl
  | cons hd tl ih =>
    obtain ⟨n, f⟩ := hd
    cases h : n == b
    · cases hp : pred n <;> simp [lookupBand, List.filter_cons, h, hp, ih]
    · have hn : n = b := by simpa using h
      subst hn
      simp [lookupBand, List.filter_cons, hb]

theorem lookupBand_append_self (b : String) (f : Band) (l : List (String × Band))
    (h : lookupBand l b = none) :
    lookupBand (l ++ [(b, f)]) b = some f := by
  induction l with
  | nil => simp [lookupBand]
  | cons hd tl ih =>
    obtain ⟨n, g⟩ := hd
    cases hn : n == b
    · simp [lookupBand, hn] at h ⊢
      exact ih h
    · simp [lookupBand, hn] at h

theorem mem_map_fst_iff_lookupBand (b : String) (l : List (String × Band)) :
    b ∈ l.map Prod.fst ↔ (lookupBand l b).isSome = true := by
  induction l with
  | nil => simp [lookupBand]
  | cons hd tl ih =>
    obtain ⟨n, f⟩ := hd
    cases h : n == b
    · have hn : ¬b = n := fun he => by simp [he] at h
      simp [lookupBand, h, hn, ih]
    · have hn : n = b := by simpa using h
      subst hn
      simp [lookupBand]

theorem contains_iff_lookupBand (b : String) (l : List (String × Band)) :
    (l.map Prod.fst).contains b = true ↔ (lookupBand l b).isSome = true :=
  Iff.trans List.elem_iff (mem_map_fst_iff_lookupBand b l)

theorem contains_of_getBand (img : Image) (b : String) (f : Band)
    (h : img.getBand b = some f) : img.bandNames.contains b = true := by
  rw [Image.bandNames, contains_iff_lookupBand]
  rw [Image.getBand] at h
  simp [h]

theorem not_contains_getBand (img : Image) (b : String)
    (h : img.bandNames.contains b = false) : img.getBand b = none := by
  rw [Image.bandNames] at h
  rcases hl : lookupBand img.bands b with _ | f
  · exact hl
  · rw [(contains_iff_lookupBand b img.bands).2 (by simp [hl])] at h
    cases h

theorem getBand_mapBands (img : Image) (g : Band → Band) (b : String) :
    (img.mapBands g).getBand b = (img.getBand b).map g :=
  lookupBand_map g b img.bands

theorem getBand_selectOptical (img : Image) (b : String) (hb : matchesOptical b = true) :
    img.selectOptical.getBand b = img.getBand b :=
  lookupBand_filter matchesOptical b hb img.bands

theorem getBand_withTime (img : Image) (t : ℚ) (b : String) :
    (img.withTime t).getBand b = img.getBand b := rfl

/-! ## Lemmas about `listMax`, `listMean` and `validValuesAt` -/

theorem listMax_eq_none_iff (l : List ℚ) : listMax l = none ↔ l = [] := by
  cases l with
  | nil => simp [listMax]
  | cons x xs => cases h : listMax xs <;> simp [listMax, h]

theorem listMax_mem (l : List ℚ) (v : ℚ) (h : listMax l = some v) : v ∈ l := by
  induction l generalizing v with
  | nil => simp [listMax] at h
  | cons x xs ih =>
    cases hm : listMax xs with
    | none =>
      simp [listMax, hm] at h
      simp [h]
    | some m =>
      simp [listMax, hm] at h
      rcases max_choice x m with hc | hc
      · rw [← h, hc]
        exact List.mem_cons_self x xs
      · rw [← h, hc]
        exact List.mem_cons_of_mem x (ih m hm)

theorem le_listMax (l : List ℚ) (v : ℚ) (h : listMax l = some v) :
    ∀ w ∈ l, w ≤ v := by
  induction l generalizing v with
  | nil => simp
  | cons x xs ih =>
    intro w hw
    cases hm : listMax xs with
    | none =>
      have hnil : xs = [] := (listMax_eq_none_iff xs).1 hm
      subst hnil
      simp [listMax] at h
      simp at hw
      rw [hw, ← h]
    | some m =>
      simp [listMax, hm] at h
      rcases List.mem_cons.1 hw with h1 | h1
      · rw [h1, ← h]
        exact le_max_left x m
      · calc w ≤ m := ih m hm w h1
          _ ≤ max x m := le_max_right x m
          _ = v := h

theorem listMean_eq_none_iff (l : List ℚ) : listMean l = none ↔ l = [] := by
  cases l <;> simp [listMean]

theorem listMean_eq_some (l : List ℚ) (v : ℚ) (h : listMean l = some v) :
    v = l.sum / l.length := by
  cases l with
  | nil => simp [listMean] at h
  | cons x xs =>
    have h2 : some ((x :: xs).sum / ((x :: xs).length : ℚ)) = some v := h
    exact (Option.some.inj h2).symm

theorem validValuesAt_eq_nil_iff (coll : List Image) (b : String) (p : Nat) :
    validValuesAt coll b p = [] ↔ ∀ img ∈ coll, img.valueAt b p = none := by
  simp [validValuesAt, List.filterMap_eq_nil_iff]

theorem validValuesAt_cons (img : Image) (coll : List Image) (b : String) (p : Nat) :
    validValuesAt (img :: coll) b p =
      match img.valueAt b p with
      | some v => v :: validValuesAt coll b p
      | none => validValuesAt coll b p := by
  cases h : img.valueAt b p <;> simp [validValuesAt, List.filterMap_cons, h]

theorem validValuesAt_eraseIdx (l : List Image) (i : Nat) (b : String) (p : Nat)
    (h : ∀ img, l[i]? = some img → img.valueAt b p = none) :
    validValuesAt (l.eraseIdx i) b p = validValuesAt l b p := by
  induction l generalizing i with
  | nil => simp [List.eraseIdx]
  | cons hd tl ih =>
    cases i with
    | zero =>
      have h0 : hd.valueAt b p = none := h hd (by simp)
      simp [List.eraseIdx, validValuesAt, List.filterMap_cons, h0]
    | succ n =>
      have hn : ∀ img, tl[n]? = some img → img.valueAt b p = none := by
        intro img hi
        exact h img (by simpa using hi)
      cases hv : hd.valueAt b p <;>
        simp [List.eraseIdx, validValuesAt, List.filterMap_cons, hv, ih n hn, validValuesAt] at *
      · exact ih n hn
      · exact ih n hn

/-! ## Lemmas about `eeMap` -/

theorem eeMap_nil (f : Image → Except EEError Image) : eeMap f [] = .ok [] := rfl

theorem eeMap_cons (f : Image → Except EEError Image) (i : Image) (l : List Image) :
    eeMap f (i :: l) = (f i).bind fun j => (eeMap f l).bind fun js => .ok (j :: js) := rfl

theorem eeMap_error_of_mem (f : Image → Except EEError Image) (l : List Image)
    (i : Image) (hi : i ∈ l) (e : EEError) (he : f i = .error e) :
    ∃ e2, eeMap f l = .error e2 := by
  induction l with
  | nil => cases hi
  | cons hd tl ih =>
    rcases List.mem_cons.1 hi with h1 | h1
    · subst h1
      exact ⟨e, by rw [eeMap_cons, he]; rfl⟩
    · cases hf : f hd with
      | error e3 => exact ⟨e3, by rw [eeMap_cons, hf]; rfl⟩
      | ok j =>
        obtain ⟨e2, h2⟩ := ih h1
        refine ⟨e2, ?_⟩
        rw [eeMap_cons, hf]
        show (eeMap f tl).bind _ = _
        rw [h2]
        rfl

theorem eeMap_ok_times (f : Image → Except EEError Image)
    (hf : ∀ i j, f i = .ok j → j.time = i.time) :
    ∀ l l', eeMap f l = .ok l' → l'.map Image.time = l.map Image.time := by
  intro l
  induction l with
  | nil =>
    intro l' h
    rw [eeMap_nil] at h
    cases h
    rfl
  | cons hd tl ih =>
    intro l' h
    rw [eeMap_cons] at h
    cases hf2 : f hd with
    | error e =>
      rw [hf2] at h
      cases h
    | ok j =>
      rw [hf2] at h
      have h2 : (eeMap f tl).bind (fun js => Except.ok (j :: js)) = .ok l' := h
      cases hm : eeMap f tl with
      | error e =>
        rw [hm] at h2
        cases h2
      | ok js =>
        rw [hm] at h2
        have h3 : j :: js = l' := by
          have := h2
          injection this
        rw [← h3]
        simp [hf hd j hf2, ih js hm]

/-! ## Time preservation through the processing stages -/

theorem mask_with_qa_time (i j : Image) (h : mask_with_qa i = .ok j) : j.time = i.time := by
  rw [mask_with_qa] at h
  cases hs : i.selectBand "QA60" with
  | error e => rw [hs] at h; cases h
  | ok qa =>
    rw [hs] at h
    have h2 : Except.ok (i.updateMask _) = Except.ok j := h
    cases h2
    rfl

theorem mask_with_scl_time (i j : Image) (h : mask_with_scl i = .ok j) : j.time = i.time := by
  rw [mask_with_scl] at h
  cases hs : i.selectBand "SCL" with
  | error e => rw [hs] at h; cases h
  | ok scl =>
    rw [hs] at h
    have h2 : Except.ok (i.updateMask _) = Except.ok j := h
    cases h2
    rfl

theorem mask_s2_clouds_time (i j : Image) (h : mask_s2_clouds i = .ok j) : j.time = i.time := by
  rw [mask_s2_clouds] at h
  cases hc : i.bandNames.contains "QA60" <;> rw [hc] at h
  · cases hm : mask_with_scl i with
    | error e => rw [if_neg (by simp)] at h; rw [hm] at h; cases h
    | ok mi =>
      rw [if_neg (by simp)] at h
      rw [hm] at h
      have h2 : Except.ok (((mi.divideAll 10000).selectOptical).withTime i.time) = Except.ok j := h
      cases h2
      rfl
  · cases hm : mask_with_qa i with
    | error e => rw [if_pos rfl] at h; rw [hm] at h; cases h
    | ok mi =>
      rw [if_pos rfl] at h
      rw [hm] at h
      have h2 : Except.ok (((mi.divideAll 10000).selectOptical).withTime i.time) = Except.ok j := h
      cases h2
      rfl

theorem add_ndvi_time (i j : Image) (h : add_ndvi i = .ok j) : j.time = i.time := by
  rw [add_ndvi] at h
  cases hn : normalizedDifference i "B8" "B4" with
  | error e => rw [hn] at h; cases h
  | ok nd =>
    rw [hn] at h
    have h2 : Except.ok (i.addBand "NDVI" nd) = Except.ok j := h
    cases h2
    rfl

theorem selectOnly_time (b : String) (i j : Image) (h : i.selectOnly b = .ok j) :
    j.time = i.time := by
  rw [Image.selectOnly] at h
  cases hg : i.getBand b <;> rw [hg] at h
  · cases h
  · have h2 : Except.ok _ = Except.ok j := h
    cases h2
    rfl

theorem s2_processed_times (coll procd : List Image)
    (h : s2_processed coll = .ok procd) :
    procd.map Image.time = coll.map Image.time := by
  rw [s2_processed] at h
  cases h1 : eeMap mask_s2_clouds coll with
  | error e => rw [h1] at h; cases h
  | ok a =>
    rw [h1] at h
    have h2 : (eeMap add_ndvi a).bind
        (fun b => eeMap (fun i => i.selectOnly "NDVI") b) = .ok procd := h
    cases h3 : eeMap add_ndvi a with
    | error e => rw [h3] at h2; cases h2
    | ok b =>
      rw [h3] at h2
      have h4 : eeMap (fun i => i.selectOnly "NDVI") b = .ok procd := h2
      calc procd.map Image.time
          = b.map Image.time := eeMap_ok_times _ (fun i j => selectOnly_time "NDVI" i j) b procd h4
        _ = a.map Image.time := eeMap_ok_times _ add_ndvi_time a b h3
        _ = coll.map Image.time := eeMap_ok_times _ mask_s2_clouds_time coll a h1

/-! ## The monthly windows -/

theorem advanceMonths_comp (ym : Nat × Nat) (k j : Nat) :
    advanceMonths (advanceMonths ym k) j = advanceMonths ym (k + j) := by
  simp [advanceMonths]
  omega

/-- `create_monthly_mvc` written with both window ends expressed through
`startOfMonthDays` (the code computes the window end by advancing the
window start one further month, which is the start of month `m + 1`). -/
theorem create_monthly_mvc_eq (coll : List Image) (m : Nat) (hm : 1 ≤ m) :
    create_monthly_mvc coll m =
      (qualityMosaic
        (filterDate coll ((startOfMonthDays m : Nat) : ℚ) ((startOfMonthDays (m + 1) : Nat) : ℚ))
        "NDVI").withTime ((startOfMonthDays m : Nat) : ℚ) := by
  rw [create_monthly_mvc, startOfMonthDays, startOfMonthDays]
  rw [advanceMonths_comp]
  have hm1 : m - 1 + 1 = m := by omega
  have hm2 : m + 1 - 1 = m := by omega
  rw [hm1, hm2]

theorem qualityMosaic_valueAt (coll : List Image) (b : String) (t : ℚ) (p : Nat) :
    ((qualityMosaic coll b).withTime t).valueAt b p = listMax (validValuesAt coll b p) := by
  simp [qualityMosaic, Image.withTime, Image.valueAt, Image.getBand, lookupBand]

/-! ## Evaluation helpers (used by the witnesses) -/

/-- The composite's NDVI sample, written through the window filter. -/
theorem valueAt_create_monthly_mvc (coll : List Image) (m : Nat) (h1 : 1 ≤ m) (p : Nat) :
    (create_monthly_mvc coll m).valueAt "NDVI" p =
      listMax (validValuesAt (filterDate coll ((startOfMonthDays m : Nat) : ℚ)
        ((startOfMonthDays (m + 1) : Nat) : ℚ)) "NDVI" p) := by
  rw [create_monthly_mvc_eq coll m h1, qualityMosaic_valueAt]

theorem filterDate_nil (s e : ℚ) : filterDate [] s e = [] := rfl

theorem filterDate_cons_of_mem (img : Image) (l : List Image) (s e : ℚ)
    (h1 : s ≤ img.time) (h2 : img.time < e) :
    filterDate (img :: l) s e = img :: filterDate l s e := by
  simp [filterDate, List.filter_cons, h1, h2]

theorem filterDate_cons_of_not_mem (img : Image) (l : List Image) (s e : ℚ)
    (h : ¬(s ≤ img.time ∧ img.time < e)) :
    filterDate (img :: l) s e = filterDate l s e := by
  simp only [filterDate, List.filter_cons, decide_eq_true_eq]
  rw [if_neg h]

/-! ## Demo data used by the witnesses -/

/-- Demo NDVI band, constant 1/2. -/
def demoBandHalf : Band := fun _ => some (1 / 2)

/-- Demo NDVI band, constant 3/10. -/
def demoBandThreeTenths : Band := fun _ => some (3 / 10)

/-- Demo March image with NDVI 1/2 everywhere (day 739260 = 2024-03-10). -/
def demoMarchA : Image :=
  { bands := [("NDVI", demoBandHalf)], time := 739260, inAoi := true }

/-- Demo March image with NDVI 3/10 everywhere (day 739270 = 2024-03-20). -/
def demoMarchB : Image :=
  { bands := [("NDVI", demoBandThreeTenths)], time := 739270, inAoi := true }

/-- Demo processed collection with two March images (Scenario A). -/
def demoMarchColl : List Image := [demoMarchA, demoMarchB]

/-! ## C1: monthly composite = per-pixel maximum over the month window -/

/-- C1: for every month index `m` (1-based) and every pixel, the monthly
composite value is the maximum valid NDVI value across the images of the
given (processed) collection whose timestamp lies in the half-open window
`[start_of_month m, start_of_month (m+1))`; pixels that are nodata in an
image contribute nothing, and the composite pixel is nodata exactly when
no selected image has a valid value there. -/
theorem monthly_composite_is_max (coll : List Image) (m p : Nat)
    (h1 : 1 ≤ m) (h12 : m ≤ 12) :
    ((create_monthly_mvc coll m).valueAt "NDVI" p = none ↔
      ∀ img ∈ filterDate coll ((startOfMonthDays m : Nat) : ℚ)
          ((startOfMonthDays (m + 1) : Nat) : ℚ), img.valueAt "NDVI" p = none) ∧
    ∀ v, (create_monthly_mvc coll m).valueAt "NDVI" p = some v →
      v ∈ validValuesAt (filterDate coll ((startOfMonthDays m : Nat) : ℚ)
            ((startOfMonthDays (m + 1) : Nat) : ℚ)) "NDVI" p ∧
      ∀ w ∈ validValuesAt (filterDate coll ((startOfMonthDays m : Nat) : ℚ)
            ((startOfMonthDays (m + 1) : Nat) : ℚ)) "NDVI" p, w ≤ v := by
  rw [create_monthly_mvc_eq coll m h1]
  rw [qualityMosaic_valueAt]
  constructor
  · exact Iff.trans (listMax_eq_none_iff _) (validValuesAt_eq_nil_iff _ _ _)
  · intro v hv
    exact ⟨listMax_mem _ v hv, le_listMax _ v hv⟩

/-- C1 witness (Scenario A): over two March images with valid NDVI 1/2
and 3/10 at pixel 0, the March (month index 1) composite is 1/2, which is
a valid value of the window and an upper bound of all of them. -/
theorem monthly_composite_is_max_run :
    (create_monthly_mvc demoMarchColl 1).valueAt "NDVI" 0 = some (1 / 2) ∧
    (1 / 2 : ℚ) ∈ validValuesAt (filterDate demoMarchColl ((startOfMonthDays 1 : Nat) : ℚ)
        ((startOfMonthDays 2 : Nat) : ℚ)) "NDVI" 0 ∧
    ∀ w ∈ validValuesAt (filterDate demoMarchColl ((startOfMonthDays 1 : Nat) : ℚ)
        ((startOfMonthDays 2 : Nat) : ℚ)) "NDVI" 0, w ≤ 1 / 2 := by
  have e1 : (create_monthly_mvc demoMarchColl 1).valueAt "NDVI" 0 = some (1 / 2) := by
    rw [valueAt_create_monthly_mvc _ 1 (by decide) 0,
      (by decide : startOfMonthDays 1 = 739251), (by decide : startOfMonthDays 2 = 739282)]
    simp only [demoMarchColl]
    rw [filterDate_cons_of_mem _ _ _ _ (by norm_num [demoMarchA]) (by norm_num [demoMarchA]),
      filterDate_cons_of_mem _ _ _ _ (by norm_num [demoMarchB]) (by norm_num [demoMarchB]),
      filterDate_nil]
    simp only [validValuesAt, List.filterMap_cons, List.filterMap_nil, Image.valueAt,
      Image.getBand, demoMarchA, demoMarchB, lookupBand, demoBandHalf, demoBandThreeTenths,
      listMax]
    rw [max_eq_left (by norm_num : (3 / 10 : ℚ) ≤ 1 / 2)]
  have h := (monthly_composite_is_max demoMarchColl 1 0 (by decide) (by decide)).2
    (1 / 2) e1
  exact ⟨e1, h.1, h.2⟩

/-! ## C2: annual mean of the valid monthly composite values -/

/-- C2: per pixel, the annual raster is the arithmetic mean of exactly the
monthly composite values that are valid there (nodata when all twelve are
nodata), and the raster carries the target CRS `EPSG:4326` at ground
resolution 10 set by the final reprojection. -/
theorem annual_mean_is_mean_of_valid (procd : List Image) (p : Nat) :
    ((mean_ndvi procd).band p = none ↔
      ∀ c ∈ monthly_mvc_collection procd, c.valueAt "NDVI" p = none) ∧
    (∀ v, (mean_ndvi procd).band p = some v →
      v = (validValuesAt (monthly_mvc_collection procd) "NDVI" p).sum /
          (validValuesAt (monthly_mvc_collection procd) "NDVI" p).length) ∧
    (monthly_mvc_collection procd).length = 12 ∧
    (mean_ndvi procd).crs = "EPSG:4326" ∧
    (mean_ndvi procd).scale = 10 := by
  refine ⟨?_, ?_, by simp [monthly_mvc_collection], rfl, rfl⟩
  · exact Iff.trans (listMean_eq_none_iff _) (validValuesAt_eq_nil_iff _ _ _)
  · intro v hv
    exact listMean_eq_some _ v hv

/-- Demo NDVI band, constant 1/5. -/
def demoBandFifth : Band := fun _ => some (1 / 5)

/-- Demo NDVI band, constant 4/5. -/
def demoBandFourFifths : Band := fun _ => some (4 / 5)

/-- Demo March image with NDVI 1/5 everywhere (day 739260 = 2024-03-10). -/
def demoAnnA : Image :=
  { bands := [("NDVI", demoBandFifth)], time := 739260, inAoi := true }

/-- Demo April image with NDVI 4/5 everywhere (day 739291 = 2024-04-10). -/
def demoAnnB : Image :=
  { bands := [("NDVI", demoBandFourFifths)], time := 739291, inAoi := true }

/-- Demo processed collection: one valid March value (1/5) and one valid
April value (4/5); every other month is empty (Scenario B shape). -/
def demoAnnColl : List Image := [demoAnnA, demoAnnB]

/-- C2 witness (Scenario B shape): with exactly two valid monthly values
1/5 and 4/5 at pixel 0 and the ten other composites nodata, the annual
mean is 1/2, the mean of the valid values. -/
theorem annual_mean_is_mean_of_valid_run :
    (mean_ndvi demoAnnColl).band 0 = some (1 / 2) ∧
    (1 / 2 : ℚ) = (validValuesAt (monthly_mvc_collection demoAnnColl) "NDVI" 0).sum /
        (validValuesAt (monthly_mvc_collection demoAnnColl) "NDVI" 0).length := by
  have v1 : (create_monthly_mvc demoAnnColl 1).valueAt "NDVI" 0 = some (1 / 5) := by
    rw [valueAt_create_monthly_mvc _ 1 (by decide) 0,
      (by decide : startOfMonthDays 1 = 739251), (by decide : startOfMonthDays 2 = 739282)]
    simp only [demoAnnColl]
    rw [filterDate_cons_of_mem _ _ _ _ (by norm_num [demoAnnA]) (by norm_num [demoAnnA]),
      filterDate_cons_of_not_mem _ _ _ _ (by norm_num [demoAnnB]), filterDate_nil]
    simp only [validValuesAt, List.filterMap_cons, List.filterMap_nil, Image.valueAt,
      Image.getBand, demoAnnA, lookupBand, demoBandFifth, listMax]
  have v2 : (create_monthly_mvc demoAnnColl 2).valueAt "NDVI" 0 = some (4 / 5) := by
    rw [valueAt_create_monthly_mvc _ 2 (by decide) 0,
      (by decide : startOfMonthDays 2 = 739282), (by decide : startOfMonthDays 3 = 739312)]
    simp only [demoAnnColl]
    rw [filterDate_cons_of_not_mem _ _ _ _ (by norm_num [demoAnnA]),
      filterDate_cons_of_mem _ _ _ _ (by norm_num [demoAnnB]) (by norm_num [demoAnnB]),
      filterDate_nil]
    simp only [validValuesAt, List.filterMap_cons, List.filterMap_nil, Image.valueAt,
      Image.getBand, demoAnnB, lookupBand, demoBandFourFifths, listMax]
  have v3 : (create_monthly_mvc demoAnnColl 3).valueAt "NDVI" 0 = none := by
    rw [valueAt_create_monthly_mvc _ 3 (by decide) 0,
      (by decide : startOfMonthDays 3 = 739312), (by decide : startOfMonthDays 4 = 739343)]
    simp only [demoAnnColl]
    rw [filterDate_cons_of_not_mem _ _ _ _ (by norm_num [demoAnnA]),
      filterDate_cons_of_not_mem _ _ _ _ (by norm_num [demoAnnB]), filterDate_nil]
    rfl
  have v4 : (create_monthly_mvc demoAnnColl 4).valueAt "NDVI" 0 = none := by
    rw [valueAt_create_monthly_mvc _ 4 (by decide) 0,
      (by decide : startOfMonthDays 4 = 739343), (by decide : startOfMonthDays 5 = 739373)]
    simp only [demoAnnColl]
    rw [filterDate_cons_of_not_mem _ _ _ _ (by norm_num [demoAnnA]),
      filterDate_cons_of_not_mem _ _ _ _ (by norm_num [demoAnnB]), filterDate_nil]
    rfl
  have v5 : (create_monthly_mvc demoAnnColl 5).valueAt "NDVI" 0 = none := by
    rw [valueAt_create_monthly_mvc _ 5 (by decide) 0,
      (by decide : startOfMonthDays 5 = 739373), (by decide : startOfMonthDays 6 = 739404)]
    simp only [demoAnnColl]
    rw [filterDate_cons_of_not_mem _ _ _ _ (by norm_num [demoAnnA]),
      filterDate_cons_of_not_mem _ _ _ _ (by norm_num [demoAnnB]), filterDate_nil]
    rfl
  have v6 : (create_monthly_mvc demoAnnColl 6).valueAt "NDVI" 0 = none := by
    rw [valueAt_create_monthly_mvc _ 6 (by decide) 0,
      (by decide : startOfMonthDays 6 = 739404), (by decide : startOfMonthDays 7 = 739435)]
    simp only [demoAnnColl]
    rw [filterDate_cons_of_not_mem _ _ _ _ (by norm_num [demoAnnA]),
      filterDate_cons_of_not_mem _ _ _ _ (by norm_num [demoAnnB]), filterDate_nil]
    rfl
  have v7 : (create_monthly_mvc demoAnnColl 7).valueAt "NDVI" 0 = none := by
    rw [valueAt_create_monthly_mvc _ 7 (by decide) 0,
      (by decide : startOfMonthDays 7 = 739435), (by decide : startOfMonthDays 8 = 739465)]
    simp only [demoAnnColl]
    rw [filterDate_cons_of_not_mem _ _ _ _ (by norm_num [demoAnnA]),
      filterDate_cons_of_not_mem _ _ _ _ (by norm_num [demoAnnB]), filterDate_nil]
    rfl
  have v8 : (create_monthly_mvc demoAnnColl 8).valueAt "NDVI" 0 = none := by
    rw [valueAt_create_monthly_mvc _ 8 (by decide) 0,
      (by decide : startOfMonthDays 8 = 739465), (by decide : startOfMonthDays 9 = 739496)]
    simp only [demoAnnColl]
    rw [filterDate_cons_of_not_mem _ _ _ _ (by norm_num [demoAnnA]),
      filterDate_cons_of_not_mem _ _ _ _ (by norm_num [demoAnnB]), filterDate_nil]
    rfl
  have v9 : (create_monthly_mvc demoAnnColl 9).valueAt "NDVI" 0 = none := by
    rw [valueAt_create_monthly_mvc _ 9 (by decide) 0,
      (by decide : startOfMonthDays 9 = 739496), (by decide : startOfMonthDays 10 = 739526)]
    simp only [demoAnnColl]
    rw [filterDate_cons_of_not_mem _ _ _ _ (by norm_num [demoAnnA]),
      filterDate_cons_of_not_mem _ _ _ _ (by norm_num [demoAnnB]), filterDate_nil]
    rfl
  have v10 : (create_monthly_mvc demoAnnColl 10).valueAt "NDVI" 0 = none := by
    rw [valueAt_create_monthly_mvc _ 10 (by decide) 0,
      (by decide : startOfMonthDays 10 = 739526), (by decide : startOfMonthDays 11 = 739557)]
    simp only [demoAnnColl]
    rw [filterDate_cons_of_not_mem _ _ _ _ (by norm_num [demoAnnA]),
      filterDate_cons_of_not_mem _ _ _ _ (by norm_num [demoAnnB]), filterDate_nil]
    rfl
  have v11 : (create_monthly_mvc demoAnnColl 11).valueAt "NDVI" 0 = none := by
    rw [valueAt_create_monthly_mvc _ 11 (by decide) 0,
      (by decide : startOfMonthDays 11 = 739557), (by decide : startOfMonthDays 12 = 739588)]
    simp only [demoAnnColl]
    rw [filterDate_cons_of_not_mem _ _ _ _ (by norm_num [demoAnnA]),
      filterDate_cons_of_not_mem _ _ _ _ (by norm_num [demoAnnB]), filterDate_nil]
    rfl
  have v12 : (create_monthly_mvc demoAnnColl 12).valueAt "NDVI" 0 = none := by
    rw [valueAt_create_monthly_mvc _ 12 (by decide) 0,
      (by decide : startOfMonthDays 12 = 739588), (by decide : startOfMonthDays 13 = 739616)]
    simp only [demoAnnColl]
    rw [filterDate_cons_of_not_mem _ _ _ _ (by norm_num [demoAnnA]),
      filterDate_cons_of_not_mem _ _ _ _ (by norm_num [demoAnnB]), filterDate_nil]
    rfl
  have hvals : validValuesAt (monthly_mvc_collection demoAnnColl) "NDVI" 0 = [1 / 5, 4 / 5] := by
    have hr : List.range 12 = [0, 1, 2, 3, 4, 5, 6, 7, 8, 9, 10, 11] := by decide
    simp only [monthly_mvc_collection, hr, List.map_cons, List.map_nil]
    norm_num [validValuesAt, List.filterMap_cons, v1, v2, v3, v4, v5, v6, v7, v8, v9, v10,
      v11, v12]
  have e1 : (mean_ndvi demoAnnColl).band 0 = some (1 / 2) := by
    show listMean (validValuesAt (monthly_mvc_collection demoAnnColl) "NDVI" 0) = some (1 / 2)
    rw [hvals]
    norm_num [listMean]
  have h := (annual_mean_is_mean_of_valid demoAnnColl 0).2.1 (1 / 2) e1
  exact ⟨e1, h⟩

/-! ## C3: empty month windows degrade to all-nodata composites -/

/-- C3: when the window of month `m` selects no image, the compositing
step still succeeds: the composite of month `m` is nodata everywhere, it
contributes no value at any pixel (removing it from the twelve composites
leaves the valid-value lists unchanged), and the annual mean is the mean
of the remaining composites' valid values. -/
theorem empty_window_nodata_composite (procd : List Image) (m : Nat)
    (h1 : 1 ≤ m) (h12 : m ≤ 12)
    (hempty : filterDate procd ((startOfMonthDays m : Nat) : ℚ)
        ((startOfMonthDays (m + 1) : Nat) : ℚ) = []) :
    (∀ p, (create_monthly_mvc procd m).valueAt "NDVI" p = none) ∧
    (∀ p, validValuesAt ((monthly_mvc_collection procd).eraseIdx (m - 1)) "NDVI" p
        = validValuesAt (monthly_mvc_collection procd) "NDVI" p) ∧
    (∀ p, (mean_ndvi procd).band p
        = listMean (validValuesAt ((monthly_mvc_collection procd).eraseIdx (m - 1)) "NDVI" p)) := by
  have hall : ∀ p, (create_monthly_mvc procd m).valueAt "NDVI" p = none := by
    intro p
    rw [create_monthly_mvc_eq procd m h1, qualityMosaic_valueAt, hempty]
    rfl
  have hidx : ∀ img, (monthly_mvc_collection procd)[m - 1]? = some img →
      ∀ p, img.valueAt "NDVI" p = none := by
    intro img himg p
    have hm : (monthly_mvc_collection procd)[m - 1]? = some (create_monthly_mvc procd m) := by
      have hmm : m - 1 + 1 = m := by omega
      simp [monthly_mvc_collection, List.getElem?_map,
        List.getElem?_range (show m - 1 < 12 by omega), hmm]
    rw [hm] at himg
    rw [← Option.some.inj himg]
    exact hall p
  refine ⟨hall, ?_, ?_⟩
  · intro p
    exact validValuesAt_eraseIdx _ (m - 1) "NDVI" p (fun img hi => hidx img hi p)
  · intro p
    show listMean (validValuesAt (monthly_mvc_collection procd) "NDVI" p) = _
    rw [validValuesAt_eraseIdx _ (m - 1) "NDVI" p (fun img hi => hidx img hi p)]

/-- Demo April image used for the C3 witness (day 739291 = 2024-04-10). -/
def demoAprilOnly : Image :=
  { bands := [("NDVI", demoBandHalf)], time := 739291, inAoi := true }

/-- C3 witness: for the collection holding one April image, the month-9
window (starting 2024-11-01) selects nothing, the month-9 composite is
nodata at pixel 0, and the annual mean at pixel 0 is the mean of the
other composites' valid values. -/
theorem empty_window_nodata_composite_run :
    (create_monthly_mvc [demoAprilOnly] 9).valueAt "NDVI" 0 = none ∧
    (mean_ndvi [demoAprilOnly]).band 0
      = listMean (validValuesAt ((monthly_mvc_collection [demoAprilOnly]).eraseIdx 8) "NDVI" 0) := by
  have hempty : filterDate [demoAprilOnly] ((startOfMonthDays 9 : Nat) : ℚ)
      ((startOfMonthDays (9 + 1) : Nat) : ℚ) = [] := by
    rw [(by decide : startOfMonthDays 9 = 739496), (by decide : startOfMonthDays (9 + 1) = 739526)]
    rw [filterDate_cons_of_not_mem _ _ _ _ (by norm_num [demoAprilOnly]), filterDate_nil]
  have h := empty_window_nodata_composite [demoAprilOnly] 9 (by decide) (by decide) hempty
  exact ⟨h.1 0, h.2.2 0⟩

/-! ## More helpers: `Except` bind reduction and 0/1 indicator values -/

theorem except_bind_ok {α β : Type} (a : α) (g : α → Except EEError β) :
    ((Except.ok a : Except EEError α) >>= g) = g a := rfl

theorem except_bind_error {α β : Type} (e : EEError) (g : α → Except EEError β) :
    ((Except.error e : Except EEError α) >>= g) = Except.error e := rfl

theorem except_pure {α : Type} (a : α) : (pure a : Except EEError α) = Except.ok a := rfl

theorem ite_one_zero_ne_zero (c : Prop) [Decidable c] :
    ((if c then (1 : ℚ) else 0) ≠ 0) ↔ c := by
  split_ifs with h <;> simp [h]

/-! ## C4: strategy selection is exclusive and driven by band presence -/

/-- C4: exactly one masking strategy is applied to each image, chosen
solely by presence of the `QA60` quality-assurance band: with `QA60`
present `mask_s2_clouds` is the bitmask path (`mask_with_qa`) followed by
scaling/band selection, and with `QA60` absent it is the classification
path (`mask_with_scl`) followed by the same postprocessing — never both
and never neither. -/
theorem mask_strategy_selection (img : Image) :
    (img.bandNames.contains "QA60" = true →
      mask_s2_clouds img = (mask_with_qa img) >>= fun mi =>
        .ok (((mi.divideAll 10000).selectOptical).withTime img.time)) ∧
    (img.bandNames.contains "QA60" = false →
      mask_s2_clouds img = (mask_with_scl img) >>= fun mi =>
        .ok (((mi.divideAll 10000).selectOptical).withTime img.time)) := by
  constructor <;> intro h <;> simp only [mask_s2_clouds, h] <;> rfl

/-- Demo QA60 band with no cloud or cirrus bit set. -/
def demoQaClear : Band := fun _ => some 0

/-- Demo reflectance band, constant 100. -/
def demoB4Plain : Band := fun _ => some 100

/-- Demo image carrying a `QA60` band (bitmask strategy applies). -/
def demoC4Img : Image :=
  { bands := [("QA60", demoQaClear), ("B4", demoB4Plain)], time := 5, inAoi := true }

/-- C4 witness: an image with a `QA60` band is processed by the bitmask
path. -/
theorem mask_strategy_selection_run :
    mask_s2_clouds demoC4Img = (mask_with_qa demoC4Img) >>= fun mi =>
      .ok (((mi.divideAll 10000).selectOptical).withTime demoC4Img.time) :=
  (mask_strategy_selection demoC4Img).1 (by decide)

/-! ## C5: the NDVI band is the guarded normalized difference -/

/-- C5: for an image carrying the `B8` (NIR) and `B4` (Red) bands and no
prior `NDVI` band, `add_ndvi` succeeds and appends the `NDVI` band which,
per pixel, equals `(NIR − Red) / (NIR + Red)` where both inputs are valid
and the denominator is nonzero, and is nodata where the denominator is
exactly zero or where an input (in particular both) is nodata; every
sample is an exact rational or nodata, never any other value. -/
theorem add_ndvi_spec (img : Image) (nir red : Band)
    (h8 : img.getBand "B8" = some nir) (h4 : img.getBand "B4" = some red)
    (hn : img.getBand "NDVI" = none) :
    add_ndvi img = .ok (img.addBand "NDVI" (ndBand nir red)) ∧ ∀ p,
      (∀ a b, nir p = some a → red p = some b → a + b ≠ 0 →
        (img.addBand "NDVI" (ndBand nir red)).valueAt "NDVI" p = some ((a - b) / (a + b))) ∧
      (∀ a b, nir p = some a → red p = some b → a + b = 0 →
        (img.addBand "NDVI" (ndBand nir red)).valueAt "NDVI" p = none) ∧
      ((nir p = none ∨ red p = none) →
        (img.addBand "NDVI" (ndBand nir red)).valueAt "NDVI" p = none) := by
  have hsel8 : img.selectBand "B8" = .ok nir := by
    rw [Image.selectBand, h8]
  have hsel4 : img.selectBand "B4" = .ok red := by
    rw [Image.selectBand, h4]
  have hband : (img.addBand "NDVI" (ndBand nir red)).getBand "NDVI" = some (ndBand nir red) :=
    lookupBand_append_self "NDVI" (ndBand nir red) img.bands hn
  have hval : ∀ p, (img.addBand "NDVI" (ndBand nir red)).valueAt "NDVI" p = ndBand nir red p := by
    intro p
    rw [Image.valueAt, hband]
    rfl
  constructor
  · simp only [add_ndvi, normalizedDifference, hsel8, hsel4, except_bind_ok, except_pure]
  · intro p
    refine ⟨?_, ?_, ?_⟩
    · intro a b ha hbv hne
      rw [hval]
      simp only [ndBand, ha, hbv, Option.bind_eq_bind, Option.some_bind]
      rw [if_neg hne]
      rfl
    · intro a b ha hbv he
      rw [hval]
      simp only [ndBand, ha, hbv, Option.bind_eq_bind, Option.some_bind]
      rw [if_pos he]
    · intro hor
      rw [hval]
      rcases hor with h0 | h0 <;> simp [ndBand, h0]

/-- Demo NIR band: 3 at pixel 0, 2 at pixel 1, nodata elsewhere. -/
def demoNir : Band := fun p => if p = 0 then some 3 else if p = 1 then some 2 else none

/-- Demo Red band: 1 at pixel 0, −2 at pixel 1, nodata elsewhere. -/
def demoRed : Band := fun p => if p = 0 then some 1 else if p = 1 then some (-2) else none

/-- Demo post-masking image with `B8` and `B4` bands. -/
def demoNdviImg : Image :=
  { bands := [("B8", demoNir), ("B4", demoRed)], time := 0, inAoi := true }

/-- C5 witness: at pixel 0 the NDVI is (3−1)/(3+1) = 1/2; at pixel 1 the
denominator 2 + (−2) is zero so the NDVI is nodata; at pixel 2 both
inputs are nodata so the NDVI is nodata. -/
theorem add_ndvi_spec_run :
    add_ndvi demoNdviImg = .ok (demoNdviImg.addBand "NDVI" (ndBand demoNir demoRed)) ∧
    (demoNdviImg.addBand "NDVI" (ndBand demoNir demoRed)).valueAt "NDVI" 0 = some (1 / 2) ∧
    (demoNdviImg.addBand "NDVI" (ndBand demoNir demoRed)).valueAt "NDVI" 1 = none ∧
    (demoNdviImg.addBand "NDVI" (ndBand demoNir demoRed)).valueAt "NDVI" 2 = none := by
  have h := add_ndvi_spec demoNdviImg demoNir demoRed rfl rfl rfl
  refine ⟨h.1, ?_, ?_, ?_⟩
  · have h0 := (h.2 0).1 3 1 (by norm_num [demoNir]) (by norm_num [demoRed]) (by norm_num)
    rw [h0]
    norm_num
  · exact (h.2 1).2.1 2 (-2) (by norm_num [demoNir]) (by norm_num [demoRed]) (by norm_num)
  · exact (h.2 2).2.2 (Or.inl (by norm_num [demoNir]))

/-! ## C6: bitmask strategy keeps a pixel iff cloud and cirrus bits are 0 -/

/-- C6: when the image carries a `QA60` band, a pixel of any retained
optical band is valid in the masked output iff it was valid in the input
and bits 10 (cloud) and 11 (cirrus) of the `QA60` sample are both zero;
in particular any pixel with the cloud bit set is nodata in the output
(whatever any classification band holds), and a clear pixel keeps its
value scaled by 1/10000. -/
theorem qa_mask_validity (img : Image) (qa f : Band) (b : String)
    (hqa : img.getBand "QA60" = some qa)
    (hf : img.getBand b = some f) (hb : matchesOptical b = true) :
    ∃ out, mask_s2_clouds img = .ok out ∧ ∀ p,
      ((out.valueAt b p).isSome = true ↔
        ((f p).isSome = true ∧ ∃ q, qa p = some q ∧
          Nat.land q.num.toNat (1 <<< 10) = 0 ∧ Nat.land q.num.toNat (1 <<< 11) = 0)) ∧
      (∀ q, qa p = some q → Nat.land q.num.toNat (1 <<< 10) ≠ 0 → out.valueAt b p = none) ∧
      (∀ q v, qa p = some q → Nat.land q.num.toNat (1 <<< 10) = 0 →
        Nat.land q.num.toNat (1 <<< 11) = 0 → f p = some v →
        out.valueAt b p = some (v / 10000)) := by
  have hcont : img.bandNames.contains "QA60" = true := contains_of_getBand img "QA60" qa hqa
  refine ⟨((img.updateMask (bandAnd (bandEq (bandAndNat qa (1 <<< 10)) 0)
      (bandEq (bandAndNat qa (1 <<< 11)) 0))).divideAll 10000).selectOptical.withTime img.time,
      ?_, ?_⟩
  · simp only [mask_s2_clouds, hcont, if_true]
    simp only [mask_with_qa, Image.selectBand, hqa, except_bind_ok, except_pure]
  · intro p
    set M : Band := bandAnd (bandEq (bandAndNat qa (1 <<< 10)) 0)
      (bandEq (bandAndNat qa (1 <<< 11)) 0) with hM
    have hup : (img.updateMask M).getBand b = some (fun p =>
        match M p with
        | some v => if v ≠ 0 then f p else none
        | none => none) := by
      rw [Image.updateMask, getBand_mapBands, hf]
      rfl
    have hdiv : ((img.updateMask M).divideAll 10000).getBand b = some (fun p =>
        (match M p with
          | some v => if v ≠ 0 then f p else none
          | none => none).map (· / 10000)) := by
      rw [Image.divideAll, getBand_mapBands, hup]
      rfl
    have hval : (((img.updateMask M).divideAll 10000).selectOptical.withTime img.time).valueAt b p
        = (match M p with
            | some v => if v ≠ 0 then f p else none
            | none => none).map (· / 10000) := by
      rw [Image.valueAt, getBand_withTime, getBand_selectOptical _ _ hb, hdiv]
      rfl
    rcases hqp : qa p with _ | q
    · have hMp : M p = none := by
        simp [hM, bandAnd, bandEq, bandAndNat, hqp]
      have hv2 : (((img.updateMask M).divideAll 10000).selectOptical.withTime img.time).valueAt b p
          = none := by
        rw [hval, hMp]
        rfl
      refine ⟨?_, ?_, ?_⟩
      · simp [hv2]
      · intro q hq h1
        cases hq
      · intro q v hq h1 h2 hfv
        cases hq
    · by_cases hc1 : Nat.land q.num.toNat (1 <<< 10) = 0
      · by_cases hc2 : Nat.land q.num.toNat (1 <<< 11) = 0
        · have hc1n : Nat.land q.num.toNat 1024 = 0 := hc1
          have hc2n : Nat.land q.num.toNat 2048 = 0 := hc2
          have hMp : M p = some 1 := by
            simp [hM, bandAnd, bandEq, bandAndNat, hqp, hc1n, hc2n]
          have hv2 : (((img.updateMask M).divideAll 10000).selectOptical.withTime
              img.time).valueAt b p = (f p).map (· / 10000) := by
            rw [hval, hMp]
            simp
          refine ⟨?_, ?_, ?_⟩
          · rw [hv2]
            cases hfp : f p <;> simp [hfp, hc1n, hc2n]
          · intro q2 hq2 hne
            cases hq2
            exact absurd hc1 hne
          · intro q2 v hq2 h1 h2 hfv
            cases hq2
            rw [hv2, hfv]
            rfl
        · have hc1n : Nat.land q.num.toNat 1024 = 0 := hc1
          have hc2n : ¬Nat.land q.num.toNat 2048 = 0 := hc2
          have hMp : M p = some 0 := by
            simp [hM, bandAnd, bandEq, bandAndNat, hqp, hc1n, hc2n]
          have hv2 : (((img.updateMask M).divideAll 10000).selectOptical.withTime
              img.time).valueAt b p = none := by
            rw [hval, hMp]
            simp
          refine ⟨?_, ?_, ?_⟩
          · simp [hv2, hc2n]
          · intro q2 hq2 hne
            exact hv2
          · intro q2 v hq2 h1 h2 hfv
            cases hq2
            exact absurd h2 hc2
      · have hc1n : ¬Nat.land q.num.toNat 1024 = 0 := hc1
        have hMp : M p = some 0 := by
          simp [hM, bandAnd, bandEq, bandAndNat, hqp, hc1n]
        have hv2 : (((img.updateMask M).divideAll 10000).selectOptical.withTime
            img.time).valueAt b p = none := by
          rw [hval, hMp]
          simp
        refine ⟨?_, ?_, ?_⟩
        · simp [hv2, hc1n]
        · intro q2 hq2 hne
          exact hv2
        · intro q2 v hq2 h1 h2 hfv
          cases hq2
          exact absurd h1 hc1

/-- Demo QA60 band: cloud bit (1024) set at pixel 0, clear at pixel 1. -/
def demoQaCloud : Band := fun p => if p = 0 then some 1024 else some 0

/-- Demo classification band marking every pixel as vegetation. -/
def demoSclVeg : Band := fun _ => some 4

/-- Demo reflectance band, constant 2. -/
def demoB4Two : Band := fun _ => some 2

/-- Demo image with `QA60`, a classification band and a `B4` band
(Scenario C: the classification calls pixel 0 clear, the QA60 cloud bit
does not). -/
def demoCloudImg : Image :=
  { bands := [("QA60", demoQaCloud), ("SCL", demoSclVeg), ("B4", demoB4Two)],
    time := 0, inAoi := true }

/-- C6 witness (Scenario C): masking succeeds; pixel 0, whose cloud bit is
set, is nodata in the output although its classification value is the
"vegetation" class; pixel 1, with clear bits, keeps its scaled value. -/
theorem qa_mask_validity_run :
    ∃ out, mask_s2_clouds demoCloudImg = .ok out ∧
      out.valueAt "B4" 0 = none ∧ out.valueAt "B4" 1 = some (2 / 10000) := by
  obtain ⟨out, hok, hall⟩ := qa_mask_validity demoCloudImg demoQaCloud demoB4Two "B4"
    rfl rfl (by decide)
  refine ⟨out, hok, ?_, ?_⟩
  · exact (hall 0).2.1 1024 (by norm_num [demoQaCloud]) (by decide)
  · exact (hall 1).2.2 0 2 (by norm_num [demoQaCloud]) (by decide) (by decide) rfl

/-! ## C7: classification strategy keeps classes 4, 5, 6 and 7 -/

/-- C7: when the image has no `QA60` band, the classification strategy is
applied: a pixel of any retained optical band is valid in the masked
output iff it was valid in the input and its `SCL` class is 4
(vegetation), 5 (bare soil), 6 (water) or 7 (unclassified); in particular
a pixel with class 6 keeps its (scaled) value. -/
theorem scl_mask_validity (img : Image) (scl f : Band) (b : String)
    (hnoqa : img.bandNames.contains "QA60" = false)
    (hscl : img.getBand "SCL" = some scl)
    (hf : img.getBand b = some f) (hb : matchesOptical b = true) :
    ∃ out, mask_s2_clouds img = .ok out ∧ ∀ p,
      ((out.valueAt b p).isSome = true ↔
        ((f p).isSome = true ∧ ∃ s, scl p = some s ∧ (s = 4 ∨ s = 5 ∨ s = 6 ∨ s = 7))) ∧
      (∀ v, scl p = some 6 → f p = some v → out.valueAt b p = some (v / 10000)) := by
  refine ⟨((img.updateMask (bandOr (bandOr (bandOr (bandEq scl 4) (bandEq scl 5))
      (bandEq scl 6)) (bandEq scl 7))).divideAll 10000).selectOptical.withTime img.time,
      ?_, ?_⟩
  · simp only [mask_s2_clouds, hnoqa, Bool.false_eq_true, if_false]
    simp only [mask_with_scl, Image.selectBand, hscl, except_bind_ok, except_pure]
  · intro p
    set M : Band := bandOr (bandOr (bandOr (bandEq scl 4) (bandEq scl 5)) (bandEq scl 6))
      (bandEq scl 7) with hM
    have hup : (img.updateMask M).getBand b = some (fun p =>
        match M p with
        | some v => if v ≠ 0 then f p else none
        | none => none) := by
      rw [Image.updateMask, getBand_mapBands, hf]
      rfl
    have hdiv : ((img.updateMask M).divideAll 10000).getBand b = some (fun p =>
        (match M p with
          | some v => if v ≠ 0 then f p else none
          | none => none).map (· / 10000)) := by
      rw [Image.divideAll, getBand_mapBands, hup]
      rfl
    have hval : (((img.updateMask M).divideAll 10000).selectOptical.withTime img.time).valueAt b p
        = (match M p with
            | some v => if v ≠ 0 then f p else none
            | none => none).map (· / 10000) := by
      rw [Image.valueAt, getBand_withTime, getBand_selectOptical _ _ hb, hdiv]
      rfl
    rcases hsp : scl p with _ | sv
    · have hMp : M p = none := by
        simp [hM, bandOr, bandEq, hsp]
      have hv2 : (((img.updateMask M).divideAll 10000).selectOptical.withTime img.time).valueAt b p
          = none := by
        rw [hval, hMp]
        rfl
      refine ⟨?_, ?_⟩
      · simp [hv2]
      · intro v hs hfv
        cases hs
    · have hMp : M p = some (if sv = 4 ∨ sv = 5 ∨ sv = 6 ∨ sv = 7 then (1 : ℚ) else 0) := by
        simp only [hM, bandOr, bandEq, hsp, Option.map_some, Option.bind_eq_bind,
          Option.some_bind, ite_one_zero_ne_zero]
        by_cases h4 : sv = 4 <;> by_cases h5 : sv = 5 <;> by_cases h6 : sv = 6 <;>
          by_cases h7 : sv = 7 <;> simp [h4, h5, h6, h7, ite_one_zero_ne_zero]
      by_cases hvalid : sv = 4 ∨ sv = 5 ∨ sv = 6 ∨ sv = 7
      · have hv2 : (((img.updateMask M).divideAll 10000).selectOptical.withTime
            img.time).valueAt b p = (f p).map (· / 10000) := by
          rw [hval, hMp, if_pos hvalid]
          simp
        refine ⟨?_, ?_⟩
        · rw [hv2]
          cases hfp : f p <;> simp [hfp, hvalid]
        · intro v hs hfv
          rw [hv2, hfv]
          rfl
      · have hv2 : (((img.updateMask M).divideAll 10000).selectOptical.withTime
            img.time).valueAt b p = none := by
          rw [hval, hMp, if_neg hvalid]
          simp
        refine ⟨?_, ?_⟩
        · simp [hv2, hvalid]
        · intro v hs hfv
          cases hs
          exact absurd (Or.inr (Or.inr (Or.inl rfl))) hvalid

/-- Demo classification band marking every pixel as water (class 6). -/
def demoSclWater : Band := fun _ => some 6

/-- Demo reflectance band, constant 3. -/
def demoB4Three : Band := fun _ => some 3

/-- Demo image lacking a `QA60` band (classification strategy applies). -/
def demoWaterImg : Image :=
  { bands := [("SCL", demoSclWater), ("B4", demoB4Three)], time := 0, inAoi := true }

/-- C7 witness (Scenario D): without a `QA60` band the classification
strategy runs, and a pixel with class 6 (water) is valid in the masked
output with its scaled value. -/
theorem scl_mask_validity_run :
    ∃ out, mask_s2_clouds demoWaterImg = .ok out ∧
      out.valueAt "B4" 0 = some (3 / 10000) := by
  obtain ⟨out, hok, hall⟩ := scl_mask_validity demoWaterImg demoSclWater demoB4Three "B4"
    (by decide) rfl rfl (by decide)
  exact ⟨out, hok, (hall 0).2 3 rfl rfl⟩

/-! ## C8: behaviour when the selected strategy's band is absent -/

/-- Demo malformed image lacking both the `QA60` and `SCL` bands. -/
def demoNoBandImg : Image :=
  { bands := [("B4", fun _ => some 1)], time := 739260, inAoi := true }

/-- C8 counterexample: for a one-image collection whose image lacks the
band its selected strategy needs, the processed collection is the
missing-band error — the run aborts; it is not the `.ok []` that dropping
the malformed image from its window would produce. -/
theorem missing_band_not_dropped_cex :
    s2_processed [demoNoBandImg] = .error (.missingBand "SCL") ∧
    s2_processed [demoNoBandImg] ≠ .ok [] := by
  have h : s2_processed [demoNoBandImg] = .error (.missingBand "SCL") := rfl
  refine ⟨h, ?_⟩
  rw [h]
  exact fun hc => Except.noConfusion hc

/-- C8 (amended): if the band demanded by the selected masking strategy is
absent at invocation time, masking that image fails with the missing-band
error, and through the mapped collection the error aborts the whole
processed-collection computation — the image is not dropped from its
window. -/
theorem missing_band_aborts_run (img : Image) (imgs : List Image)
    (hq : img.bandNames.contains "QA60" = false)
    (hs : img.getBand "SCL" = none) :
    mask_s2_clouds img = .error (.missingBand "SCL") ∧
    (img ∈ imgs → ∃ e, s2_processed imgs = .error e) := by
  have hmask : mask_s2_clouds img = .error (.missingBand "SCL") := by
    simp only [mask_s2_clouds, hq, Bool.false_eq_true, if_false]
    simp only [mask_with_scl, Image.selectBand, hs]
    rfl
  refine ⟨hmask, ?_⟩
  intro hmem
  obtain ⟨e2, h2⟩ := eeMap_error_of_mem mask_s2_clouds imgs img hmem _ hmask
  refine ⟨e2, ?_⟩
  simp only [s2_processed, h2, except_bind_error]

/-- C8 witness for the amended claim: the malformed demo image makes its
own masking fail with the missing-band error and makes the whole
processed collection fail. -/
theorem missing_band_aborts_run_wit :
    mask_s2_clouds demoNoBandImg = .error (.missingBand "SCL") ∧
    ∃ e, s2_processed [demoNoBandImg] = .error e := by
  have h := missing_band_aborts_run demoNoBandImg [demoNoBandImg] (by decide) rfl
  exact ⟨h.1, h.2 (List.mem_singleton.2 rfl)⟩

/-! ## C9: the last four monthly windows are always empty -/

/-- C9: the archive is filtered to `[2024-03-01, 2024-10-31)` while the
twelve windows advance in month steps from 2024-03-01, so the windows of
month indices 9..12 (starting 2024-11-01 or later) select zero images of
the processed collection — whatever the archive holds — and those
composites are built from empty selections (all-nodata). -/
theorem late_windows_always_empty (archive procd : List Image) (m : Nat)
    (hok : s2_processed (get_sentinel2_collection archive (start_date : Nat) (end_date : Nat))
      = .ok procd)
    (h9 : 9 ≤ m) (h12 : m ≤ 12) :
    filterDate procd ((startOfMonthDays m : Nat) : ℚ)
      ((startOfMonthDays (m + 1) : Nat) : ℚ) = [] ∧
    ∀ p, (create_monthly_mvc procd m).valueAt "NDVI" p = none := by
  have htimes : procd.map Image.time
      = (get_sentinel2_collection archive (start_date : Nat) (end_date : Nat)).map Image.time :=
    s2_processed_times _ procd hok
  have hlt : ∀ img ∈ procd, img.time < ((end_date : Nat) : ℚ) := by
    intro img hmem
    have hmt : img.time ∈ procd.map Image.time := List.mem_map_of_mem _ hmem
    rw [htimes] at hmt
    obtain ⟨c, hc, hct⟩ := List.mem_map.1 hmt
    have hcf : c ∈ (filterBounds archive).filter
        (fun img => decide (((start_date : Nat) : ℚ) ≤ img.time ∧
          img.time < ((end_date : Nat) : ℚ))) := hc
    have hcond := of_decide_eq_true (List.mem_filter.1 hcf).2
    rw [← hct]
    exact hcond.2
  have hge : ((end_date : Nat) : ℚ) ≤ ((startOfMonthDays m : Nat) : ℚ) := by
    have hnat : end_date ≤ startOfMonthDays m := by
      interval_cases m <;> decide
    exact_mod_cast hnat
  have hempty : filterDate procd ((startOfMonthDays m : Nat) : ℚ)
      ((startOfMonthDays (m + 1) : Nat) : ℚ) = [] := by
    rw [filterDate, List.filter_eq_nil_iff]
    intro img hmem
    simp only [decide_eq_true_eq, not_and]
    intro hcond
    exact absurd hcond (not_le.2 (lt_of_lt_of_le (hlt img hmem) hge))
  refine ⟨hempty, ?_⟩
  intro p
  rw [create_monthly_mvc_eq procd m (by omega), qualityMosaic_valueAt, hempty]
  rfl

/-- C9 witness: the empty archive processes to the empty collection, and
the month-9 window on it selects nothing and composites to nodata. -/
theorem late_windows_always_empty_run :
    filterDate [] ((startOfMonthDays 9 : Nat) : ℚ) ((startOfMonthDays (9 + 1) : Nat) : ℚ) = [] ∧
    ∀ p, (create_monthly_mvc [] 9).valueAt "NDVI" p = none :=
  late_windows_always_empty [] [] 9 rfl (by decide) (by decide)

/-! ## C10: determinism of the pipeline -/

/-- C10: every stage of the embedded pipeline is a pure function of the
input collection, so running the whole pipeline twice over the identical
immutable archive yields bit-identical output rasters. -/
theorem pipeline_deterministic (a b : List Image) (h : a = b) :
    runPipeline a = runPipeline b := by
  rw [h]

/-- C10 witness: two runs on the same concrete archive agree. -/
theorem pipeline_deterministic_run : runPipeline [demoMarchA] = runPipeline [demoMarchA] :=
  pipeline_deterministic [demoMarchA] [demoMarchA] rfl

end VegHealth
